import Mathlib

/-
Verification development for the MovieMaster record service
(Express + MongoDB, canonical variant of the near-duplicate sources).

The service is embedded shallowly:
  * a stored document is an association list from field names to values
    (JS objects have unique keys; theorems that rely on key uniqueness
    take it as an explicit hypothesis),
  * the collection is a list of documents; findOne, updateOne and
    deleteOne act on the first document whose _id field matches, which
    agrees with MongoDB on stores satisfying the _id uniqueness invariant,
  * MongoDB ObjectId values are carried as their string form,
  * numbers are carried as integers (the rating bounds of the claims are
    integral; float parsing and NaN are outside the model),
  * the sort comparator follows the BSON type ranking
    (null or missing, then numbers, strings, arrays, booleans, dates),
    with numbers, booleans and dates compared by value; distinct strings
    and distinct arrays tie, which is below the resolution of the claims.
-/

namespace MovieMaster

/-- A JS/BSON value as far as the service manipulates one: strings,
integral numbers, booleans, null, server-side Date objects, and arrays
of string tags (the genre lists). -/
inductive Value where
  | vStr (s : String)
  | vNum (n : Int)
  | vBool (b : Bool)
  | vNull
  | vDate (t : Nat)
  | vList (tags : List String)
deriving DecidableEq, Repr

/-- JS truthiness of a value: empty string, zero, false and null are
falsy; dates and arrays are truthy. -/
def truthy : Value → Bool
  | Value.vStr s => decide (s ≠ "")
  | Value.vNum n => decide (n ≠ 0)
  | Value.vBool b => b
  | Value.vNull => false
  | Value.vDate _ => true
  | Value.vList _ => true

/-- JS truthiness of a possibly absent value: undefined is falsy. -/
def truthyOpt : Option Value → Bool
  | none => false
  | some v => truthy v

/-- Whether a value is a server-side Date object. JSON request bodies
never contain one. -/
def isDateValue : Value → Bool
  | Value.vDate _ => true
  | _ => false

/-- A document: field names mapped to values, in insertion order. -/
abbrev Doc := List (String × Value)

/-- Field lookup, first occurrence. -/
def getField : Doc → String → Option Value
  | [], _ => none
  | (k, v) :: rest, key => if k = key then some v else getField rest key

/-- Whether a document has a field of the given name. -/
def hasField (d : Doc) (key : String) : Bool :=
  d.any (fun p => decide (p.1 = key))

/-- Replace the value of every occurrence of a field. -/
def setAll : Doc → String → Value → Doc
  | [], _, _ => []
  | (k, w) :: rest, key, v =>
      if k = key then (key, v) :: setAll rest key v
      else (k, w) :: setAll rest key v

/-- JS property assignment: overwrite the field in place when present,
append it otherwise. -/
def setField (d : Doc) (key : String) (v : Value) : Doc :=
  if hasField d key then setAll d key v else d ++ [(key, v)]

/-- JS delete of a property. -/
def delField (d : Doc) (key : String) : Doc :=
  d.filter (fun p => decide (p.1 ≠ key))

/-- MongoDB $set: assign every field of the update document in order,
leaving the other fields of the target untouched. -/
def mergeSet (d : Doc) : Doc → Doc
  | [] => d
  | (k, v) :: rest => mergeSet (setField d k v) rest

/-- Hexadecimal digit test, as the ObjectId format accepts. -/
def isHexDigit (c : Char) : Bool :=
  c.isDigit || ('a' ≤ c && c ≤ 'f') || ('A' ≤ c && c ≤ 'F')

/-- ObjectId.isValid of the MongoDB driver: a 12 character string, or a
24 character hexadecimal string. -/
def isValidObjectId (s : String) : Bool :=
  s.data.length == 12 || (s.data.length == 24 && s.data.all isHexDigit)

/-- findOne on the _id field: first document whose _id equals the
queried identifier. -/
def findById : List Doc → String → Option Doc
  | [], _ => none
  | d :: ds, id =>
      if getField d "_id" = some (Value.vStr id) then some d else findById ds id

/-- updateOne on the _id field: replace the first matching document. -/
def replaceFirst : List Doc → String → Doc → List Doc
  | [], _, _ => []
  | d :: ds, id, m =>
      if getField d "_id" = some (Value.vStr id) then m :: ds
      else d :: replaceFirst ds id m

/-- deleteOne on the _id field: remove the first matching document. -/
def deleteById : List Doc → String → List Doc
  | [], _ => []
  | d :: ds, id =>
      if getField d "_id" = some (Value.vStr id) then ds
      else d :: deleteById ds id

/-- The JS lazy-or operator on possibly absent values: the left operand
when it is present and truthy, the right operand otherwise. -/
def jsOr (a b : Option Value) : Option Value :=
  match a with
  | some v => if truthy v then some v else b
  | none => b

/-- Caller email resolution of the DELETE handler:
headers[user-email] or query.userEmail or body.userEmail. -/
def resolveUserEmail (headerEmail queryEmail : Option String) (body : Doc) :
    Option Value :=
  jsOr (headerEmail.map Value.vStr)
    (jsOr (queryEmail.map Value.vStr) (getField body "userEmail"))

/-- BSON type rank used by the sort comparator: null and missing lowest,
then numbers, strings, arrays, booleans, dates. -/
def bsonRank : Option Value → Int
  | none => 0
  | some Value.vNull => 0
  | some (Value.vNum _) => 1
  | some (Value.vStr _) => 2
  | some (Value.vList _) => 3
  | some (Value.vBool _) => 4
  | some (Value.vDate _) => 5

/-- Within-rank sort key: numbers, dates and booleans by value. -/
def bsonSub : Option Value → Int
  | some (Value.vNum n) => n
  | some (Value.vDate t) => (t : Int)
  | some (Value.vBool b) => if b then 1 else 0
  | _ => 0

/-- Sort comparator on field values: rank first, value within the rank. -/
def bsonLe (a b : Option Value) : Bool :=
  decide (bsonRank a < bsonRank b ∨ (bsonRank a = bsonRank b ∧ bsonSub a ≤ bsonSub b))

/-- Insert a document into a list that is descending on the key,
keeping it descending. -/
def insertByDesc (key : Doc → Option Value) (d : Doc) : List Doc → List Doc
  | [] => [d]
  | e :: es =>
      if bsonLe (key d) (key e) then e :: insertByDesc key d es
      else d :: e :: es

/-- sort with a descending single-field specification, as insertion
sort on the comparator. -/
def sortByFieldDesc (field : String) : List Doc → List Doc
  | [] => []
  | d :: ds => insertByDesc (fun m => getField m field) d (sortByFieldDesc field ds)

/-- The genre part of the list filter: absent means match all, present
means $in over the comma separated tags, matching a string field that is
one of the tags or an array field that intersects them. -/
def genreMatches (genreParam : Option String) (d : Doc) : Bool :=
  match genreParam with
  | none => true
  | some g =>
      if g = "" then true
      else
        let tags := g.splitOn ","
        match getField d "genre" with
        | some (Value.vStr s) => tags.contains s
        | some (Value.vList ss) => ss.any (fun s => tags.contains s)
        | _ => false

/-- The rating part of the list filter: built only when a bound is
given; $gte and $lte are attached independently and match only numeric
rating fields. -/
def ratingMatches (minRating maxRating : Option Int) (d : Doc) : Bool :=
  match minRating, maxRating with
  | none, none => true
  | _, _ =>
      match getField d "rating" with
      | some (Value.vNum r) =>
          (match minRating with
           | some lo => decide (lo ≤ r)
           | none => true) &&
          (match maxRating with
           | some hi => decide (r ≤ hi)
           | none => true)
      | _ => false

/-- GET /movies: filter by genre and rating range, newest first. -/
def listMovies (store : List Doc) (genreParam : Option String)
    (minRating maxRating : Option Int) : List Doc :=
  sortByFieldDesc "createdAt"
    (store.filter (fun d => genreMatches genreParam d && ratingMatches minRating maxRating d))

/-- GET /movies/:id: 400 on a malformed identifier before any lookup,
404 when absent, 200 with the document otherwise. -/
def getMovieById (store : List Doc) (id : String) : Nat × Option Doc :=
  if isValidObjectId id = false then (400, none)
  else
    match findById store id with
    | none => (404, none)
    | some m => (200, some m)

/-- Result of POST /movies: status, the store afterwards, and the
inserted identifier on success. -/
structure CreateResult where
  status : Nat
  store : List Doc
  insertedId : Option Value
deriving DecidableEq, Repr

/-- POST /movies: 400 when title or addedBy is falsy, otherwise set
createdAt to the server time and insert. A client-supplied _id is kept;
inserting a duplicate _id is a store error surfacing as 500. A missing
_id is filled with the fresh store-generated identifier. -/
def createMovie (store : List Doc) (now : Nat) (freshId : String)
    (payload : Doc) : CreateResult :=
  if !truthyOpt (getField payload "title") || !truthyOpt (getField payload "addedBy") then
    ⟨400, store, none⟩
  else
    let movie := setField payload "createdAt" (Value.vDate now)
    match getField movie "_id" with
    | some v =>
        if store.any (fun d => decide (getField d "_id" = some v)) then ⟨500, store, none⟩
        else ⟨201, store ++ [movie], some v⟩
    | none =>
        ⟨201, store ++ [setField movie "_id" (Value.vStr freshId)],
          some (Value.vStr freshId)⟩

/-- The fields stripped out of a PUT body before persisting: the caller
identity, then _id, addedBy and createdAt. -/
def updStrip (body : Doc) : Doc :=
  delField (delField (delField (delField body "userEmail") "_id") "addedBy") "createdAt"

/-- PUT /movies/:id: 400 on a malformed identifier, 404 when absent,
403 unless body.userEmail equals the stored addedBy, otherwise $set the
stripped body onto the document. -/
def updateMovie (store : List Doc) (id : String) (body : Doc) : Nat × List Doc :=
  if isValidObjectId id = false then (400, store)
  else
    match findById store id with
    | none => (404, store)
    | some movie =>
        if getField movie "addedBy" = getField body "userEmail" then
          (200, replaceFirst store id (mergeSet movie (updStrip body)))
        else (403, store)

/-- DELETE /movies/:id: 400 on a malformed identifier, 401 when no
truthy caller email is found in header, query or body, 404 when absent,
403 unless the resolved email equals the stored addedBy, otherwise
remove the document. -/
def deleteMovie (store : List Doc) (id : String)
    (headerEmail queryEmail : Option String) (body : Doc) : Nat × List Doc :=
  if isValidObjectId id = false then (400, store)
  else
    match resolveUserEmail headerEmail queryEmail body with
    | none => (401, store)
    | some v =>
        if truthy v = false then (401, store)
        else
          match findById store id with
          | none => (404, store)
          | some movie =>
              if getField movie "addedBy" = some v then (200, deleteById store id)
              else (403, store)

/-- GET /top-rated: sort by rating descending, first five. -/
def topRatedMovies (store : List Doc) : List Doc :=
  (sortByFieldDesc "rating" store).take 5

/-- GET /recent: sort by createdAt descending, first six. -/
def recentMovies (store : List Doc) : List Doc :=
  (sortByFieldDesc "createdAt" store).take 6

/-- Modelled from the spec: the spec describes caller email transport
for Delete as the first non-empty value among the dedicated header, the
query parameter and the body field; the source realises it with the JS
lazy-or chain, compared against this definition in the C4 theorem. -/
def specFirstNonEmptyEmail (headerEmail queryEmail bodyEmail : Option String) :
    Option String :=
  match headerEmail with
  | some s =>
      if s ≠ "" then some s
      else
        match queryEmail with
        | some t => if t ≠ "" then some t else bodyEmail.filter (fun u => decide (u ≠ ""))
        | none => bodyEmail.filter (fun u => decide (u ≠ ""))
  | none =>
      match queryEmail with
      | some t => if t ≠ "" then some t else bodyEmail.filter (fun u => decide (u ≠ ""))
      | none => bodyEmail.filter (fun u => decide (u ≠ ""))

/-! Field lookup and assignment lemmas. -/

theorem hasField_cons {k : String} {w : Value} {rest : Doc} {key : String} :
    hasField ((k, w) :: rest) key = (decide (k = key) || hasField rest key) := rfl

theorem getField_eq_none_of_hasField_false {d : Doc} {key : String}
    (h : hasField d key = false) : getField d key = none := by
  induction d with
  | nil => rfl
  | cons p rest ih =>
      obtain ⟨k, v⟩ := p
      rw [hasField_cons, Bool.or_eq_false_iff] at h
      have hk : ¬k = key := by simpa using h.1
      simp [getField, hk, ih h.2]

theorem getField_append_left {d1 d2 : Doc} {key : String} {v : Value}
    (h : getField d1 key = some v) : getField (d1 ++ d2) key = some v := by
  induction d1 with
  | nil => simp [getField] at h
  | cons p rest ih =>
      obtain ⟨k, w⟩ := p
      by_cases hk : k = key
      · simp [getField, hk] at h ⊢; exact h
      · simp [getField, hk] at h ⊢; exact ih h

theorem getField_append_right {d1 d2 : Doc} {key : String}
    (h : getField d1 key = none) : getField (d1 ++ d2) key = getField d2 key := by
  induction d1 with
  | nil => rfl
  | cons p rest ih =>
      obtain ⟨k, w⟩ := p
      by_cases hk : k = key
      · simp [getField, hk] at h
      · simp [getField, hk] at h ⊢; exact ih h

theorem getField_setAll_self {d : Doc} {key : String} {v : Value}
    (h : hasField d key = true) : getField (setAll d key v) key = some v := by
  induction d with
  | nil => simp [hasField] at h
  | cons p rest ih =>
      obtain ⟨k, w⟩ := p
      by_cases hk : k = key
      · simp [setAll, hk, getField]
      · rw [hasField_cons, Bool.or_eq_true_iff] at h
        have h2 : hasField rest key = true := by
          rcases h with h | h
          · exact absurd (of_decide_eq_true h) hk
          · exact h
        simp [setAll, hk, getField, ih h2]

theorem getField_setAll_ne {d : Doc} {key key2 : String} {v : Value}
    (h : key2 ≠ key) : getField (setAll d key v) key2 = getField d key2 := by
  induction d with
  | nil => rfl
  | cons p rest ih =>
      obtain ⟨k, w⟩ := p
      by_cases hk : k = key
      · simp [setAll, hk, getField, Ne.symm h, ih]
      · simp [setAll, hk, getField, ih]

theorem getField_setField_self {d : Doc} {key : String} {v : Value} :
    getField (setField d key v) key = some v := by
  by_cases h : hasField d key
  · simp [setField, h, getField_setAll_self h]
  · simp only [setField, Bool.not_eq_true] at h ⊢
    rw [h]
    simp only [Bool.false_eq_true, if_false]
    rw [getField_append_right (getField_eq_none_of_hasField_false h)]
    simp [getField]

theorem getField_setField_ne {d : Doc} {key key2 : String} {v : Value}
    (h : key2 ≠ key) : getField (setField d key v) key2 = getField d key2 := by
  by_cases hh : hasField d key
  · simp [setField, hh, getField_setAll_ne h]
  · simp only [setField, Bool.not_eq_true] at hh ⊢
    rw [hh]
    simp only [Bool.false_eq_true, if_false]
    cases hg : getField d key2 with
    | some v2 => exact getField_append_left hg
    | none => rw [getField_append_right hg]; simp [getField, Ne.symm h]

theorem delField_cons {k : String} {w : Value} {rest : Doc} {key : String} :
    delField ((k, w) :: rest) key =
      if k = key then delField rest key else (k, w) :: delField rest key := by
  by_cases hk : k = key <;> simp [delField, List.filter_cons, hk]

theorem getField_delField_self {d : Doc} {key : String} :
    getField (delField d key) key = none := by
  induction d with
  | nil => rfl
  | cons p rest ih =>
      obtain ⟨k, w⟩ := p
      rw [delField_cons]
      by_cases hk : k = key
      · simpa [hk] using ih
      · simpa [hk, getField] using ih

theorem getField_delField_ne {d : Doc} {key key2 : String} (h : key2 ≠ key) :
    getField (delField d key) key2 = getField d key2 := by
  induction d with
  | nil => rfl
  | cons p rest ih =>
      obtain ⟨k, w⟩ := p
      rw [delField_cons]
      by_cases hk : k = key
      · simp [hk, getField, Ne.symm h, ih]
      · simp [hk, getField, ih]

theorem hasField_delField {d : Doc} {key key2 : String} :
    hasField (delField d key) key2 = (decide (key2 ≠ key) && hasField d key2) := by
  induction d with
  | nil => simp [delField, hasField]
  | cons p rest ih =>
      obtain ⟨k, w⟩ := p
      rw [delField_cons]
      by_cases hk : k = key
      · rw [if_pos hk, ih, hasField_cons]
        by_cases h2 : key2 = key
        · simp [h2]
        · have hkk : ¬k = key2 := fun e => h2 (e.symm.trans hk)
          simp [h2, hkk]
      · rw [if_neg hk, hasField_cons, hasField_cons, ih]
        by_cases h2 : key2 = key
        · have hkk : ¬k = key2 := fun e => hk (h2 ▸ e)
          simp [h2, hkk, hk]
        · by_cases h3 : k = key2 <;> simp [h2, h3]

theorem hasField_eq_false_of_not_mem {d : Doc} {key : String}
    (h : key ∉ d.map Prod.fst) : hasField d key = false := by
  induction d with
  | nil => rfl
  | cons p rest ih =>
      obtain ⟨k, w⟩ := p
      simp only [List.map_cons, List.mem_cons] at h
      push_neg at h
      rw [hasField_cons, ih h.2, Bool.or_false, decide_eq_false (Ne.symm h.1)]

theorem hasField_eq_false_of_getField_none {d : Doc} {key : String}
    (h : getField d key = none) : hasField d key = false := by
  induction d with
  | nil => rfl
  | cons p rest ih =>
      obtain ⟨k, v⟩ := p
      by_cases hk : k = key
      · simp [getField, hk] at h
      · simp [getField, hk] at h
        rw [hasField_cons, ih h, Bool.or_false, decide_eq_false hk]

/-! Merge ($set) lemmas. -/

theorem getField_mergeSet_of_hasField_false {u : Doc} {d : Doc} {key : String}
    (h : hasField u key = false) : getField (mergeSet d u) key = getField d key := by
  induction u generalizing d with
  | nil => rfl
  | cons p rest ih =>
      obtain ⟨k, v⟩ := p
      rw [hasField_cons, Bool.or_eq_false_iff] at h
      have hk : ¬k = key := by simpa using h.1
      rw [mergeSet, ih h.2, getField_setField_ne (fun e => hk e.symm)]

theorem getField_mergeSet_of_getField {u : Doc} {d : Doc} {key : String} {v : Value}
    (hnd : (u.map Prod.fst).Nodup) (h : getField u key = some v) :
    getField (mergeSet d u) key = some v := by
  induction u generalizing d with
  | nil => simp [getField] at h
  | cons p rest ih =>
      obtain ⟨k, w⟩ := p
      rw [List.map_cons, List.nodup_cons] at hnd
      by_cases hk : k = key
      · simp [getField, hk] at h
        subst hk h
        rw [mergeSet, getField_mergeSet_of_hasField_false
          (hasField_eq_false_of_not_mem hnd.1)]
        exact getField_setField_self
      · simp [getField, hk] at h
        rw [mergeSet]
        exact ih hnd.2 h

/-! Lookup and replacement along the _id field. -/

theorem findById_idMatch {store : List Doc} {id : String} {m : Doc}
    (h : findById store id = some m) :
    getField m "_id" = some (Value.vStr id) := by
  induction store with
  | nil => simp [findById] at h
  | cons d ds ih =>
      by_cases hd : getField d "_id" = some (Value.vStr id)
      · simp [findById, hd] at h; subst h; exact hd
      · simp [findById, hd] at h; exact ih h

theorem findById_replaceFirst {store : List Doc} {id : String} {m m2 : Doc}
    (hfind : findById store id = some m)
    (hid : getField m2 "_id" = some (Value.vStr id)) :
    findById (replaceFirst store id m2) id = some m2 := by
  induction store with
  | nil => simp [findById] at hfind
  | cons d ds ih =>
      by_cases hd : getField d "_id" = some (Value.vStr id)
      · simp [replaceFirst, hd, findById, hid]
      · simp [findById, hd] at hfind
        simp [replaceFirst, hd, findById, ih hfind]

/-! Key uniqueness is preserved by field removal. -/

theorem keys_delField_sublist (d : Doc) (key : String) :
    List.Sublist ((delField d key).map Prod.fst) (d.map Prod.fst) :=
  List.Sublist.map Prod.fst (List.filter_sublist d)

theorem nodup_keys_delField {d : Doc} {key : String}
    (h : (d.map Prod.fst).Nodup) : ((delField d key).map Prod.fst).Nodup :=
  h.sublist (keys_delField_sublist d key)

theorem nodup_keys_updStrip {body : Doc}
    (h : (body.map Prod.fst).Nodup) : ((updStrip body).map Prod.fst).Nodup :=
  nodup_keys_delField (nodup_keys_delField (nodup_keys_delField (nodup_keys_delField h)))

theorem getField_updStrip {body : Doc} {key : String}
    (h1 : key ≠ "userEmail") (h2 : key ≠ "_id") (h3 : key ≠ "addedBy")
    (h4 : key ≠ "createdAt") :
    getField (updStrip body) key = getField body key := by
  unfold updStrip
  rw [getField_delField_ne h4, getField_delField_ne h3, getField_delField_ne h2,
    getField_delField_ne h1]

theorem hasField_updStrip_protected (body : Doc) :
    hasField (updStrip body) "_id" = false ∧
    hasField (updStrip body) "addedBy" = false ∧
    hasField (updStrip body) "createdAt" = false := by
  unfold updStrip
  refine ⟨?_, ?_, ?_⟩ <;> simp [hasField_delField]

/-! Sort comparator lemmas. -/

theorem bsonLe_total (a b : Option Value) : bsonLe a b = true ∨ bsonLe b a = true := by
  simp only [bsonLe, decide_eq_true_eq]
  omega

theorem bsonLe_trans {a b c : Option Value} (h1 : bsonLe a b = true)
    (h2 : bsonLe b c = true) : bsonLe a c = true := by
  simp only [bsonLe, decide_eq_true_eq] at h1 h2 ⊢
  omega

theorem perm_insertByDesc (key : Doc → Option Value) (d : Doc) (l : List Doc) :
    List.Perm (insertByDesc key d l) (d :: l) := by
  induction l with
  | nil => exact List.Perm.refl [d]
  | cons e es ih =>
      rw [insertByDesc]
      by_cases hle : bsonLe (key d) (key e) = true
      · rw [if_pos hle]
        exact List.Perm.trans (List.Perm.cons e ih) (List.Perm.swap d e es)
      · rw [if_neg hle]

theorem perm_sortByFieldDesc (field : String) (l : List Doc) :
    List.Perm (sortByFieldDesc field l) l := by
  induction l with
  | nil => exact List.Perm.refl []
  | cons d ds ih =>
      rw [sortByFieldDesc]
      exact List.Perm.trans
        (perm_insertByDesc (fun m => getField m field) d (sortByFieldDesc field ds))
        (List.Perm.cons d ih)

theorem mem_insertByDesc {key : Doc → Option Value} {d x : Doc} {l : List Doc}
    (h : x ∈ insertByDesc key d l) : x = d ∨ x ∈ l := by
  have := (perm_insertByDesc key d l).mem_iff.mp h
  simpa using this

theorem pairwise_insertByDesc {key : Doc → Option Value} {d : Doc} {l : List Doc}
    (hl : List.Pairwise (fun a b => bsonLe (key b) (key a) = true) l) :
    List.Pairwise (fun a b => bsonLe (key b) (key a) = true) (insertByDesc key d l) := by
  induction l with
  | nil => simp [insertByDesc]
  | cons e es ih =>
      rw [List.pairwise_cons] at hl
      rw [insertByDesc]
      by_cases hle : bsonLe (key d) (key e) = true
      · rw [if_pos hle, List.pairwise_cons]
        refine ⟨?_, ih hl.2⟩
        intro x hx
        rcases mem_insertByDesc hx with rfl | hx
        · exact hle
        · exact hl.1 x hx
      · rw [if_neg hle, List.pairwise_cons]
        have hed : bsonLe (key e) (key d) = true := by
          rcases bsonLe_total (key d) (key e) with h | h
          · exact absurd h hle
          · exact h
        refine ⟨?_, List.pairwise_cons.mpr hl⟩
        intro x hx
        rcases List.mem_cons.mp hx with rfl | hx
        · exact hed
        · exact bsonLe_trans (hl.1 x hx) hed

theorem pairwise_sortByFieldDesc (field : String) (l : List Doc) :
    List.Pairwise (fun a b => bsonLe (getField b field) (getField a field) = true)
      (sortByFieldDesc field l) := by
  induction l with
  | nil => exact List.Pairwise.nil
  | cons d ds ih =>
      rw [sortByFieldDesc]
      exact pairwise_insertByDesc ih

theorem filter_ext (p q : Doc → Bool) (l : List Doc) (h : ∀ x, p x = q x) :
    l.filter p = l.filter q := by
  induction l with
  | nil => rfl
  | cons d ds ih => rw [List.filter_cons, List.filter_cons, h d, ih]

theorem listPred_min (d : Doc) :
    (genreMatches none d && ratingMatches (some 7) none d) =
      (match getField d "rating" with
       | some (Value.vNum r) => decide (7 ≤ r)
       | _ => false) := by
  cases hr : getField d "rating" with
  | none => simp [genreMatches, ratingMatches, hr]
  | some v => cases v <;> simp [genreMatches, ratingMatches, hr]

theorem listPred_max (d : Doc) :
    (genreMatches none d && ratingMatches none (some 9) d) =
      (match getField d "rating" with
       | some (Value.vNum r) => decide (r ≤ 9)
       | _ => false) := by
  cases hr : getField d "rating" with
  | none => simp [genreMatches, ratingMatches, hr]
  | some v => cases v <;> simp [genreMatches, ratingMatches, hr]

theorem listPred_range (d : Doc) :
    (genreMatches none d && ratingMatches (some 7) (some 9) d) =
      (match getField d "rating" with
       | some (Value.vNum r) => decide (7 ≤ r) && decide (r ≤ 9)
       | _ => false) := by
  cases hr : getField d "rating" with
  | none => simp [genreMatches, ratingMatches, hr]
  | some v => cases v <;> simp [genreMatches, ratingMatches, hr]

/-! Concrete fixtures used by the witnesses and counterexamples. -/

/-- A well formed ObjectId string: 24 hexadecimal characters. -/
def oid1 : String := "aaaaaaaaaaaaaaaaaaaaaaaa"

/-- A second well formed ObjectId string. -/
def oid2 : String := "bbbbbbbbbbbbbbbbbbbbbbbb"

/-- A stored movie owned by a@x.com. -/
def movie1 : Doc :=
  [("_id", Value.vStr oid1), ("title", Value.vStr "Inception"),
   ("addedBy", Value.vStr "a@x.com"), ("rating", Value.vNum 9),
   ("createdAt", Value.vDate 100)]

/-- A one movie store. -/
def store1 : List Doc := [movie1]

/-! Claim theorems. -/

/-- C1: for every update or delete on an existing record whose caller
email differs from the stored addedBy, the handler answers 403 and the
store is unchanged. -/
theorem foreign_email_forbidden
    (store : List Doc) (id : String) (body : Doc)
    (headerEmail queryEmail : Option String) (m : Doc)
    (hid : isValidObjectId id = true)
    (hfind : findById store id = some m) :
    (getField m "addedBy" ≠ getField body "userEmail" →
      updateMovie store id body = (403, store)) ∧
    (∀ v, resolveUserEmail headerEmail queryEmail body = some v →
      truthy v = true → getField m "addedBy" ≠ some v →
      deleteMovie store id headerEmail queryEmail body = (403, store)) := by
  constructor
  · intro hne
    unfold updateMovie
    simp [hid, hfind, hne]
  · intro v hres htr hne
    unfold deleteMovie
    simp [hid, hres, htr, hfind, hne]

/-- Witness for C1 at a concrete store, record and foreign caller. -/
theorem foreign_email_forbidden_witness :
    isValidObjectId oid1 = true ∧
    findById store1 oid1 = some movie1 ∧
    updateMovie store1 oid1
      [("userEmail", Value.vStr "b@x.com"), ("rating", Value.vNum 10)] = (403, store1) ∧
    deleteMovie store1 oid1 (some "b@x.com") none [] = (403, store1) := by
  refine ⟨by decide, by decide, ?_, ?_⟩
  · exact (foreign_email_forbidden store1 oid1
      [("userEmail", Value.vStr "b@x.com"), ("rating", Value.vNum 10)]
      (some "b@x.com") none movie1 (by decide) (by decide)).1 (by decide)
  · exact (foreign_email_forbidden store1 oid1 [] (some "b@x.com") none movie1
      (by decide) (by decide)).2 (Value.vStr "b@x.com") (by decide) (by decide) (by decide)

/-- C3: a malformed identifier makes GetById, Update and Delete answer
400 with the store untouched, uniformly in the store contents, so no
lookup result can influence the outcome. -/
theorem invalid_id_rejected_before_lookup
    (id : String) (hinv : isValidObjectId id = false) :
    ∀ (store : List Doc) (body : Doc) (headerEmail queryEmail : Option String),
      getMovieById store id = (400, none) ∧
      updateMovie store id body = (400, store) ∧
      deleteMovie store id headerEmail queryEmail body = (400, store) := by
  intro store body headerEmail queryEmail
  refine ⟨?_, ?_, ?_⟩ <;> simp [getMovieById, updateMovie, deleteMovie, hinv]

/-- Witness for C3 at the concrete malformed identifier zz. -/
theorem invalid_id_rejected_before_lookup_witness :
    isValidObjectId "zz" = false ∧
    getMovieById store1 "zz" = (400, none) ∧
    updateMovie store1 "zz" [("userEmail", Value.vStr "a@x.com")] = (400, store1) ∧
    deleteMovie store1 "zz" (some "a@x.com") none [] = (400, store1) := by
  refine ⟨by decide, ?_, ?_, ?_⟩
  · exact (invalid_id_rejected_before_lookup "zz" (by decide) store1
      [("userEmail", Value.vStr "a@x.com")] (some "a@x.com") none).1
  · exact (invalid_id_rejected_before_lookup "zz" (by decide) store1
      [("userEmail", Value.vStr "a@x.com")] (some "a@x.com") none).2.1
  · exact (invalid_id_rejected_before_lookup "zz" (by decide) store1
      [("userEmail", Value.vStr "a@x.com")] (some "a@x.com") none).2.2

/-- C9: the caller email of Delete is resolved with header first, query
second and body last: a non-empty header value wins over any query and
body values, and a non-empty query value wins over any body value. -/
theorem delete_email_precedence
    (queryEmail : Option String) (body : Doc) (s : String) (hs : s ≠ "") :
    resolveUserEmail (some s) queryEmail body = some (Value.vStr s) ∧
    (∀ t, t ≠ "" →
      resolveUserEmail none (some t) body = some (Value.vStr t) ∧
      resolveUserEmail (some "") (some t) body = some (Value.vStr t)) := by
  constructor
  · simp [resolveUserEmail, jsOr, truthy, hs]
  · intro t ht
    constructor <;> simp [resolveUserEmail, jsOr, truthy, ht]

/-- Witness for C9 with three distinct emails in the three locations. -/
theorem delete_email_precedence_witness :
    ("a@x.com" : String) ≠ "" ∧
    resolveUserEmail (some "a@x.com") (some "b@x.com")
      [("userEmail", Value.vStr "c@x.com")] = some (Value.vStr "a@x.com") ∧
    resolveUserEmail none (some "b@x.com")
      [("userEmail", Value.vStr "c@x.com")] = some (Value.vStr "b@x.com") := by
  refine ⟨by decide, ?_, ?_⟩
  · exact (delete_email_precedence (some "b@x.com")
      [("userEmail", Value.vStr "c@x.com")] "a@x.com" (by decide)).1
  · exact ((delete_email_precedence (some "b@x.com")
      [("userEmail", Value.vStr "c@x.com")] "a@x.com" (by decide)).2 "b@x.com"
      (by decide)).1

/-- A successful update body: the owner as caller, a rating change, and
an attempted ownership hijack that must be stripped. -/
def updBody : Doc :=
  [("userEmail", Value.vStr "a@x.com"), ("rating", Value.vNum 10),
   ("addedBy", Value.vStr "evil@x.com")]

/-- C2: a successful update keeps _id, addedBy and createdAt of the
record even when the body carries them, and merges the remaining body
fields partially: a field named in the body payload is overwritten, a
field not named keeps its stored value. -/
theorem update_partial_merge
    (store : List Doc) (id : String) (body m : Doc)
    (hid : isValidObjectId id = true)
    (hfind : findById store id = some m)
    (hown : getField m "addedBy" = getField body "userEmail")
    (hnd : (body.map Prod.fst).Nodup) :
    updateMovie store id body =
      (200, replaceFirst store id (mergeSet m (updStrip body))) ∧
    findById (replaceFirst store id (mergeSet m (updStrip body))) id =
      some (mergeSet m (updStrip body)) ∧
    getField (mergeSet m (updStrip body)) "_id" = getField m "_id" ∧
    getField (mergeSet m (updStrip body)) "addedBy" = getField m "addedBy" ∧
    getField (mergeSet m (updStrip body)) "createdAt" = getField m "createdAt" ∧
    (∀ k, k ≠ "_id" → k ≠ "addedBy" → k ≠ "createdAt" → k ≠ "userEmail" →
      getField (mergeSet m (updStrip body)) k =
        match getField body k with
        | some v => some v
        | none => getField m k) := by
  obtain ⟨hp1, hp2, hp3⟩ := hasField_updStrip_protected body
  have h1 : getField (mergeSet m (updStrip body)) "_id" = getField m "_id" :=
    getField_mergeSet_of_hasField_false hp1
  have h2 : getField (mergeSet m (updStrip body)) "addedBy" = getField m "addedBy" :=
    getField_mergeSet_of_hasField_false hp2
  have h3 : getField (mergeSet m (updStrip body)) "createdAt" = getField m "createdAt" :=
    getField_mergeSet_of_hasField_false hp3
  have hupd : updateMovie store id body =
      (200, replaceFirst store id (mergeSet m (updStrip body))) := by
    unfold updateMovie
    simp [hid, hfind, hown]
  have hid2 : getField (mergeSet m (updStrip body)) "_id" = some (Value.vStr id) :=
    h1.trans (findById_idMatch hfind)
  refine ⟨hupd, findById_replaceFirst hfind hid2, h1, h2, h3, ?_⟩
  intro k hk1 hk2 hk3 hk4
  cases hg : getField body k with
  | some v =>
      rw [getField_mergeSet_of_getField (nodup_keys_updStrip hnd)
        ((getField_updStrip hk4 hk1 hk2 hk3).trans hg)]
  | none =>
      rw [getField_mergeSet_of_hasField_false (hasField_eq_false_of_getField_none
        ((getField_updStrip hk4 hk1 hk2 hk3).trans hg))]

/-- Witness for C2: the owner updates the rating; _id, addedBy and
createdAt survive, the rating is overwritten, the title is kept. -/
theorem update_partial_merge_witness :
    isValidObjectId oid1 = true ∧
    findById store1 oid1 = some movie1 ∧
    getField movie1 "addedBy" = getField updBody "userEmail" ∧
    (updBody.map Prod.fst).Nodup ∧
    updateMovie store1 oid1 updBody =
      (200, replaceFirst store1 oid1 (mergeSet movie1 (updStrip updBody))) ∧
    getField (mergeSet movie1 (updStrip updBody)) "addedBy" = getField movie1 "addedBy" ∧
    getField (mergeSet movie1 (updStrip updBody)) "rating" =
      (match getField updBody "rating" with
       | some v => some v
       | none => getField movie1 "rating") ∧
    getField (mergeSet movie1 (updStrip updBody)) "title" =
      (match getField updBody "title" with
       | some v => some v
       | none => getField movie1 "title") := by
  refine ⟨by decide, by decide, by decide, by decide, ?_, ?_, ?_, ?_⟩
  · exact (update_partial_merge store1 oid1 updBody movie1 (by decide) (by decide)
      (by decide) (by decide)).1
  · exact (update_partial_merge store1 oid1 updBody movie1 (by decide) (by decide)
      (by decide) (by decide)).2.2.2.1
  · exact (update_partial_merge store1 oid1 updBody movie1 (by decide) (by decide)
      (by decide) (by decide)).2.2.2.2.2 "rating" (by decide) (by decide) (by decide)
      (by decide)
  · exact (update_partial_merge store1 oid1 updBody movie1 (by decide) (by decide)
      (by decide) (by decide)).2.2.2.2.2 "title" (by decide) (by decide) (by decide)
      (by decide)

/-- C4: the Delete caller email is the first non-empty value among the
user-email header, the userEmail query parameter and the userEmail body
field, witnessed by agreement with the spec-level first non-empty
selection; when nothing non-empty is supplied anywhere the handler
answers 401 and removes nothing. -/
theorem delete_email_resolution
    (store : List Doc) (id : String) (headerEmail queryEmail : Option String)
    (body : Doc) (hid : isValidObjectId id = true) :
    ((headerEmail = none ∨ headerEmail = some "") →
     (queryEmail = none ∨ queryEmail = some "") →
     (getField body "userEmail" = none ∨ getField body "userEmail" = some (Value.vStr "")) →
     deleteMovie store id headerEmail queryEmail body = (401, store)) ∧
    (∀ s, s ≠ "" → resolveUserEmail (some s) queryEmail body = some (Value.vStr s)) ∧
    ((headerEmail = none ∨ headerEmail = some "") →
     ∀ t, t ≠ "" → resolveUserEmail headerEmail (some t) body = some (Value.vStr t)) ∧
    ((headerEmail = none ∨ headerEmail = some "") →
     (queryEmail = none ∨ queryEmail = some "") →
     ∀ v, getField body "userEmail" = some v →
       resolveUserEmail headerEmail queryEmail body = some v) := by
  refine ⟨?_, ?_, ?_, ?_⟩
  · intro hh hq hb
    unfold deleteMovie
    rcases hh with rfl | rfl <;> rcases hq with rfl | rfl <;> rcases hb with hb | hb <;>
      simp [hid, resolveUserEmail, jsOr, truthy, hb]
  · intro s hs
    simp [resolveUserEmail, jsOr, truthy, hs]
  · intro hh t ht
    rcases hh with rfl | rfl <;> simp [resolveUserEmail, jsOr, truthy, ht]
  · intro hh hq v hv
    rcases hh with rfl | rfl <;> rcases hq with rfl | rfl <;>
      simp [resolveUserEmail, jsOr, truthy, hv]

/-- Witness for C4: empty header and query with an empty body email give
401; a header value is selected; a body value is selected when header
and query are empty. -/
theorem delete_email_resolution_witness :
    isValidObjectId oid1 = true ∧
    deleteMovie store1 oid1 none (some "") [("userEmail", Value.vStr "")] = (401, store1) ∧
    resolveUserEmail (some "h@x.com") (some "") [("userEmail", Value.vStr "")] =
      some (Value.vStr "h@x.com") ∧
    resolveUserEmail none (some "") [("userEmail", Value.vStr "c@x.com")] =
      some (Value.vStr "c@x.com") := by
  refine ⟨by decide, ?_, ?_, ?_⟩
  · exact (delete_email_resolution store1 oid1 none (some "")
      [("userEmail", Value.vStr "")] (by decide)).1 (Or.inl rfl) (Or.inr rfl)
      (Or.inr (by decide))
  · exact (delete_email_resolution store1 oid1 (some "h@x.com") (some "")
      [("userEmail", Value.vStr "")] (by decide)).2.1 "h@x.com" (by decide)
  · exact (delete_email_resolution store1 oid1 none (some "")
      [("userEmail", Value.vStr "c@x.com")] (by decide)).2.2.2 (Or.inl rfl)
      (Or.inr rfl) (Value.vStr "c@x.com") (by decide)

/-- A valid creation payload carrying a client-side createdAt string. -/
def createBody : Doc :=
  [("title", Value.vStr "Dune"), ("addedBy", Value.vStr "a@x.com"),
   ("createdAt", Value.vStr "1999-01-01")]

/-- C5: a successful creation stores the server time as createdAt; the
body arrives as JSON, so no body value is a Date object and the stored
createdAt differs from every client-supplied createdAt value. -/
theorem create_server_createdAt
    (store : List Doc) (now : Nat) (freshId : String) (payload : Doc)
    (ht : truthyOpt (getField payload "title") = true)
    (ha : truthyOpt (getField payload "addedBy") = true)
    (hfresh : ∀ v, getField payload "_id" = some v →
      store.any (fun d => decide (getField d "_id" = some v)) = false)
    (hjson : ∀ v, getField payload "createdAt" = some v → isDateValue v = false) :
    (createMovie store now freshId payload).status = 201 ∧
    ((createMovie store now freshId payload).store.getLast?.bind
      (fun m => getField m "createdAt")) = some (Value.vDate now) ∧
    (∀ v, getField payload "createdAt" = some v → v ≠ Value.vDate now) := by
  have hlast : ∀ v, getField payload "createdAt" = some v → v ≠ Value.vDate now := by
    intro v hv e
    have := hjson v hv
    rw [e] at this
    simp [isDateValue] at this
  have hcc : getField (setField (setField payload "createdAt" (Value.vDate now))
      "_id" (Value.vStr freshId)) "createdAt" = some (Value.vDate now) := by
    rw [getField_setField_ne (show ("createdAt" : String) ≠ "_id" by decide),
      getField_setField_self]
  refine ⟨?_, ?_, hlast⟩ <;>
  · unfold createMovie
    simp only [ht, ha, Bool.not_true, Bool.or_self, Bool.false_eq_true, if_false]
    cases hg : getField (setField payload "createdAt" (Value.vDate now)) "_id" with
    | some v =>
        have hv : getField payload "_id" = some v := by
          rw [getField_setField_ne (show ("_id" : String) ≠ "createdAt" by decide)] at hg
          exact hg
        simp [hfresh v hv, List.getLast?_concat, getField_setField_self]
    | none =>
        simp [List.getLast?_concat, hcc]

/-- Witness for C5: concrete creation over the one movie store with a
client-supplied createdAt string. -/
theorem create_server_createdAt_witness :
    truthyOpt (getField createBody "title") = true ∧
    truthyOpt (getField createBody "addedBy") = true ∧
    (createMovie store1 7 oid2 createBody).status = 201 ∧
    ((createMovie store1 7 oid2 createBody).store.getLast?.bind
      (fun m => getField m "createdAt")) = some (Value.vDate 7) ∧
    Value.vStr "1999-01-01" ≠ Value.vDate 7 := by
  have h := create_server_createdAt store1 7 oid2 createBody (by decide) (by decide)
    (by intro v hv; rw [show getField createBody "_id" = none from rfl] at hv;
        exact Option.noConfusion hv)
    (by intro v hv;
        rw [show getField createBody "createdAt" = some (Value.vStr "1999-01-01")
          from rfl] at hv;
        injection hv with h2; rw [← h2]; rfl)
  exact ⟨by decide, by decide, h.1, h.2.1,
    h.2.2 (Value.vStr "1999-01-01") (by decide)⟩

/-- C6 (amended): creation answers 400 exactly when title or addedBy is
missing or falsy, persisting nothing; when both are truthy and any
client-supplied _id is absent from the store, exactly one record is
appended and 201 is returned with the identifier of the new record. -/
theorem create_validation
    (store : List Doc) (now : Nat) (freshId : String) (payload : Doc) :
    ((createMovie store now freshId payload).status = 400 ↔
      (truthyOpt (getField payload "title") = false ∨
       truthyOpt (getField payload "addedBy") = false)) ∧
    ((createMovie store now freshId payload).status = 400 →
      (createMovie store now freshId payload).store = store) ∧
    (truthyOpt (getField payload "title") = true →
     truthyOpt (getField payload "addedBy") = true →
     (∀ v, getField payload "_id" = some v →
       store.any (fun d => decide (getField d "_id" = some v)) = false) →
     (createMovie store now freshId payload).status = 201 ∧
     (createMovie store now freshId payload).store.length = store.length + 1 ∧
     (createMovie store now freshId payload).store.take store.length = store ∧
     (createMovie store now freshId payload).insertedId =
       ((createMovie store now freshId payload).store.getLast?.bind
         (fun m => getField m "_id")) ∧
     ((createMovie store now freshId payload).insertedId).isSome = true) := by
  refine ⟨?_, ?_, ?_⟩
  · cases ht : truthyOpt (getField payload "title") with
    | false => simp [createMovie, ht]
    | true =>
        cases ha : truthyOpt (getField payload "addedBy") with
        | false => simp [createMovie, ht, ha]
        | true =>
            simp only [ht, ha, Bool.true_eq_false, or_self, iff_false]
            unfold createMovie
            simp only [ht, ha, Bool.not_true, Bool.or_self, Bool.false_eq_true, if_false]
            cases hg : getField (setField payload "createdAt" (Value.vDate now)) "_id" with
            | some v =>
                by_cases hdup : store.any (fun d => decide (getField d "_id" = some v)) = true
                · simp [hdup]
                · simp [hdup]
            | none => simp
  · cases ht : truthyOpt (getField payload "title") with
    | false => simp [createMovie, ht]
    | true =>
        cases ha : truthyOpt (getField payload "addedBy") with
        | false => simp [createMovie, ht, ha]
        | true =>
            intro h400
            exfalso
            revert h400
            unfold createMovie
            simp only [ht, ha, Bool.not_true, Bool.or_self, Bool.false_eq_true, if_false]
            cases hg : getField (setField payload "createdAt" (Value.vDate now)) "_id" with
            | some v =>
                by_cases hdup : store.any (fun d => decide (getField d "_id" = some v)) = true
                · simp [hdup]
                · simp [hdup]
            | none => simp
  · intro ht ha hfresh
    unfold createMovie
    simp only [ht, ha, Bool.not_true, Bool.or_self, Bool.false_eq_true, if_false]
    cases hg : getField (setField payload "createdAt" (Value.vDate now)) "_id" with
    | some v =>
        have hv : getField payload "_id" = some v := by
          rw [getField_setField_ne (by decide)] at hg
          exact hg
        simp [hfresh v hv, List.getLast?_concat, List.take_left, hg]
    | none =>
        simp [List.getLast?_concat, List.take_left, getField_setField_self]

/-- Counterexample to C6 as frozen: a payload whose title is the number
zero is neither missing nor empty, yet creation answers 400; and a
payload whose client _id already exists in the store has non-empty
title and addedBy, yet creation answers 500 and persists nothing. -/
theorem create_validation_counterexample :
    ((createMovie [] 0 oid2
        [("title", Value.vNum 0), ("addedBy", Value.vStr "a@x.com")]).status = 400 ∧
     getField [(("title" : String), Value.vNum 0),
       ("addedBy", Value.vStr "a@x.com")] "title" ≠ none ∧
     getField [(("title" : String), Value.vNum 0),
       ("addedBy", Value.vStr "a@x.com")] "title" ≠ some (Value.vStr "")) ∧
    ((createMovie store1 0 oid2
        [("_id", Value.vStr oid1), ("title", Value.vStr "Tenet"),
         ("addedBy", Value.vStr "a@x.com")]).status = 500 ∧
     (createMovie store1 0 oid2
        [("_id", Value.vStr oid1), ("title", Value.vStr "Tenet"),
         ("addedBy", Value.vStr "a@x.com")]).store = store1) := by
  refine ⟨⟨?_, ?_, ?_⟩, ?_, ?_⟩ <;> decide

/-- Witness for C6: the amended success clause at a concrete valid
payload without a client _id. -/
theorem create_validation_witness :
    truthyOpt (getField createBody "title") = true ∧
    truthyOpt (getField createBody "addedBy") = true ∧
    (createMovie store1 7 oid2 createBody).status = 201 ∧
    (createMovie store1 7 oid2 createBody).store.length = store1.length + 1 ∧
    (createMovie store1 7 oid2 createBody).store.take store1.length = store1 ∧
    (createMovie store1 7 oid2 createBody).insertedId =
      ((createMovie store1 7 oid2 createBody).store.getLast?.bind
        (fun m => getField m "_id")) ∧
    ((createMovie store1 7 oid2 createBody).insertedId).isSome = true := by
  have h := (create_validation store1 7 oid2 createBody).2.2 (by decide) (by decide)
    (by intro v hv; rw [show getField createBody "_id" = none from rfl] at hv;
        exact Option.noConfusion hv)
  exact ⟨by decide, by decide, h.1, h.2.1, h.2.2.1, h.2.2.2.1, h.2.2.2.2⟩

/-- A creation payload carrying a client _id and descriptive fields. -/
def createBodyWithId : Doc :=
  [("_id", Value.vStr oid2), ("title", Value.vStr "Memento"),
   ("addedBy", Value.vStr "a@x.com"), ("rating", Value.vNum 8),
   ("createdAt", Value.vStr "fake")]

/-- C10: creation persists every client field except createdAt
verbatim, including a client-supplied _id, which is not stripped and
becomes the identifier of the inserted record in place of a generated
one. -/
theorem create_keeps_client_id
    (store : List Doc) (now : Nat) (freshId : String) (payload : Doc) (idv : Value)
    (ht : truthyOpt (getField payload "title") = true)
    (ha : truthyOpt (getField payload "addedBy") = true)
    (hidv : getField payload "_id" = some idv)
    (hfresh : store.any (fun d => decide (getField d "_id" = some idv)) = false) :
    createMovie store now freshId payload =
      ⟨201, store ++ [setField payload "createdAt" (Value.vDate now)], some idv⟩ ∧
    getField (setField payload "createdAt" (Value.vDate now)) "_id" = some idv ∧
    (∀ k, k ≠ "createdAt" →
      getField (setField payload "createdAt" (Value.vDate now)) k =
        getField payload k) := by
  have hid2 : getField (setField payload "createdAt" (Value.vDate now)) "_id" =
      some idv := by
    rw [getField_setField_ne (by decide)]
    exact hidv
  refine ⟨?_, hid2, fun k hk => getField_setField_ne hk⟩
  unfold createMovie
  simp only [ht, ha, Bool.not_true, Bool.or_self, Bool.false_eq_true, if_false]
  simp [hid2, hfresh]

/-- Witness for C10: a fresh client _id is kept and returned, the
rating and title are stored verbatim. -/
theorem create_keeps_client_id_witness :
    getField createBodyWithId "_id" = some (Value.vStr oid2) ∧
    createMovie store1 7 "cccccccccccccccccccccccc" createBodyWithId =
      ⟨201, store1 ++ [setField createBodyWithId "createdAt" (Value.vDate 7)],
        some (Value.vStr oid2)⟩ ∧
    getField (setField createBodyWithId "createdAt" (Value.vDate 7)) "_id" =
      some (Value.vStr oid2) ∧
    getField (setField createBodyWithId "createdAt" (Value.vDate 7)) "rating" =
      getField createBodyWithId "rating" := by
  have h := create_keeps_client_id store1 7 "cccccccccccccccccccccccc"
    createBodyWithId (Value.vStr oid2) (by decide) (by decide) (by decide) (by decide)
  exact ⟨by decide, h.1, h.2.1, h.2.2 "rating" (by decide)⟩

/-- C7: listing with minRating 7 returns exactly the stored records
whose numeric rating is at least 7; with maxRating 9 exactly those with
rating at most 9; with both bounds exactly those with rating between 7
and 9 inclusive, the output being a permutation of the corresponding
filter of the store. -/
theorem list_rating_range (store : List Doc) :
    List.Perm (listMovies store none (some 7) none)
      (store.filter (fun d =>
        match getField d "rating" with
        | some (Value.vNum r) => decide (7 ≤ r)
        | _ => false)) ∧
    List.Perm (listMovies store none none (some 9))
      (store.filter (fun d =>
        match getField d "rating" with
        | some (Value.vNum r) => decide (r ≤ 9)
        | _ => false)) ∧
    List.Perm (listMovies store none (some 7) (some 9))
      (store.filter (fun d =>
        match getField d "rating" with
        | some (Value.vNum r) => decide (7 ≤ r) && decide (r ≤ 9)
        | _ => false)) := by
  refine ⟨?_, ?_, ?_⟩
  · unfold listMovies
    refine List.Perm.trans (perm_sortByFieldDesc _ _) ?_
    rw [filter_ext _ _ store listPred_min]
  · unfold listMovies
    refine List.Perm.trans (perm_sortByFieldDesc _ _) ?_
    rw [filter_ext _ _ store listPred_max]
  · unfold listMovies
    refine List.Perm.trans (perm_sortByFieldDesc _ _) ?_
    rw [filter_ext _ _ store listPred_range]

/-- C8: Recent returns at most six records in descending createdAt
order and TopRated returns at most five records in descending rating
order, for every store. -/
theorem recent_topRated_shape (store : List Doc) :
    (recentMovies store).length ≤ 6 ∧
    List.Pairwise (fun a b =>
      bsonLe (getField b "createdAt") (getField a "createdAt") = true)
      (recentMovies store) ∧
    (topRatedMovies store).length ≤ 5 ∧
    List.Pairwise (fun a b =>
      bsonLe (getField b "rating") (getField a "rating") = true)
      (topRatedMovies store) := by
  refine ⟨?_, ?_, ?_, ?_⟩
  · unfold recentMovies
    rw [List.length_take]
    exact min_le_left _ _
  · unfold recentMovies
    exact List.Pairwise.sublist (List.take_sublist _ _)
      (pairwise_sortByFieldDesc "createdAt" store)
  · unfold topRatedMovies
    rw [List.length_take]
    exact min_le_left _ _
  · unfold topRatedMovies
    exact List.Pairwise.sublist (List.take_sublist _ _)
      (pairwise_sortByFieldDesc "rating" store)

end MovieMaster
